import Mathlib

/-!
Verification of the jfinder acquisition pipeline (task state store, search
cycle engine, multi-source download racer) against its specification.

The TypeScript sources are shallowly embedded: pure functions become Lean
functions, stateful code becomes explicit state passing, network calls become
oracle parameters, and byte buffers are lists of byte values.  The JS float
expressions in the progress formulas all have the shape
`Math.round(a + num/den)` on nonnegative values small enough that IEEE
doubles compute them exactly at every comparison and rounding boundary, so
they are rendered exactly over `ℕ` by `jsRoundDiv`.
-/

namespace JFinder

/-- JS `Math.round (num / den)` for nonnegative integers (round half up):
`⌊num/den + 1/2⌋ = (2*num + den) / (2*den)` in integer division. -/
def jsRoundDiv (num den : ℕ) : ℕ := (2 * num + den) / (2 * den)

/-- JS `s.includes(sub)`: substring containment. -/
def jsIncludes (s sub : String) : Bool := decide (sub.data <:+: s.data)

/-- JS `s.startsWith(pre)`. -/
def jsStartsWith (s pre : String) : Bool := decide (pre.data <+: s.data)

/-- JS `s.trim()`: strip leading and trailing whitespace. -/
def jsTrim (s : String) : String :=
  String.mk ((s.data.dropWhile Char.isWhitespace).reverse.dropWhile
    Char.isWhitespace).reverse

/-- JS `s.toLowerCase()` (character-wise). -/
def jsToLower (s : String) : String := String.mk (s.data.map Char.toLower)

/-- The suffix after the first occurrence of `sep`, or `none` when `sep`
does not occur. -/
def afterFirst (sep : List Char) : List Char → Option (List Char)
  | [] => if sep = [] then some [] else none
  | c :: rest =>
    if sep <+: c :: rest then some ((c :: rest).drop sep.length)
    else afterFirst sep rest

/-- Iterate `afterFirst` to reach the suffix after the last occurrence of
`sep`; the fuel (instantiated with the string length) bounds the number of
occurrences, so for a nonempty `sep` the result is exactly JS
`s.split(sep).pop()`. -/
def afterLastGo (sep : List Char) : ℕ → List Char → List Char
  | 0, s => s
  | fuel + 1, s =>
    match afterFirst sep s with
    | none => s
    | some r => afterLastGo sep fuel r

/-- JS `s.split(sep).pop() || ''` for a nonempty `sep` occurring in `s`. -/
def afterLast (sep : List Char) (s : List Char) : List Char :=
  afterLastGo sep s.length s

/-- The prefix before the first occurrence of `sep` (the whole list when
`sep` does not occur): JS `s.split(sep)[0]` for nonempty `sep`. -/
def beforeFirst (sep : List Char) : List Char → List Char
  | [] => []
  | c :: rest => if sep <+: c :: rest then [] else c :: beforeFirst sep rest

/-- JS `x || d` on an optional string: the default replaces both a missing
value and the empty (falsy) string. -/
def jsOrStr (x : Option String) (d : String) : String :=
  match x with
  | some s => if s = "" then d else s
  | none => d

/-- Task lifecycle states (`TaskState` in the types module). -/
inductive TaskState
  | pending
  | processing
  | complete
  | error
deriving DecidableEq, Repr

/-- The task record held by the task store (`TaskStatus` in the types
module).  `lastUpdate` is an abstract timestamp (`new Date()` becomes a
monotone counter threaded through the pipeline). -/
structure TaskStatus where
  status : TaskState
  progress : ℕ
  message : String
  totalPapers : ℕ
  papersFound : ℕ
  papersDownloaded : ℕ
  currentCycle : ℕ
  totalCycles : ℕ
  error : Option String := none
  downloadUrl : Option String := none
  metadataUrl : Option String := none
  lastUpdate : ℕ := 0
deriving DecidableEq, Repr

/-- `TaskManager.createTask(totalPapers, totalCycles)`: fresh record in
`pending` with progress 0. -/
def createTask (totalPapers totalCycles : ℕ) (now : ℕ) : TaskStatus :=
  { status := .pending
    progress := 0
    message := "Initializing..."
    totalPapers := totalPapers
    papersFound := 0
    papersDownloaded := 0
    currentCycle := 0
    totalCycles := totalCycles
    lastUpdate := now }

/-- `TaskManager.startProcessing`: `updateTask` with status `processing`,
a message, and progress 5. -/
def startProcessing (t : TaskStatus) (message : String) (now : ℕ) : TaskStatus :=
  { t with status := .processing, message := message, progress := 5, lastUpdate := now }

/-- `TaskManager.updateCycleProgress`: progress is
`Math.round(Math.min(90, 5 + currentCycle * 85 / totalCycles))` when
`totalCycles > 0`, else 50.  The `min` bites exactly when
`currentCycle > totalCycles` (the fraction equals 90 at equality), so the
rounded value is rendered as a guarded `jsRoundDiv`. -/
def updateCycleProgress (t : TaskStatus) (message : String)
    (currentCycle papersFound : ℕ) (now : ℕ) : TaskStatus :=
  let cycleProgress : ℕ :=
    if 0 < t.totalCycles then
      if currentCycle ≤ t.totalCycles then
        jsRoundDiv (5 * t.totalCycles + 85 * currentCycle) t.totalCycles
      else 90
    else 50
  { t with message := message, currentCycle := currentCycle,
           papersFound := papersFound, progress := cycleProgress,
           lastUpdate := now }

/-- `TaskManager.updateDownloadProgress`: progress is
`Math.round(90 + (papersDownloaded / total) * 10)`; every call site has
`total > 0`. -/
def updateDownloadProgress (t : TaskStatus) (papersDownloaded total : ℕ)
    (now : ℕ) : TaskStatus :=
  { t with
      message := s!"Downloading papers ({papersDownloaded}/{total})..."
      papersDownloaded := papersDownloaded
      progress := jsRoundDiv (90 * total + 10 * papersDownloaded) total
      lastUpdate := now }

/-- `TaskManager.completeTask`: forces status `complete`, progress 100,
message `Complete`, and stores the result URLs (possibly `undefined`). -/
def completeTask (t : TaskStatus) (downloadUrl metadataUrl : Option String)
    (now : ℕ) : TaskStatus :=
  { t with status := .complete, progress := 100, message := "Complete",
           downloadUrl := downloadUrl, metadataUrl := metadataUrl,
           lastUpdate := now }

/-- `TaskManager.failTask`: forces status `error`, records the message in
both `error` and `message`; all other fields are left as they are. -/
def failTask (t : TaskStatus) (e : String) (now : ℕ) : TaskStatus :=
  { t with status := .error, error := some e, message := e, lastUpdate := now }

/-- `updateTask(taskId, { message })` as called by the pipeline. -/
def setMessage (t : TaskStatus) (message : String) (now : ℕ) : TaskStatus :=
  { t with message := message, lastUpdate := now }

/-- `updateTask(taskId, { message, progress })` as called by
`processResults` with its fixed progress values 50, 95 and 98. -/
def setMessageProgress (t : TaskStatus) (message : String) (progress : ℕ)
    (now : ℕ) : TaskStatus :=
  { t with message := message, progress := progress, lastUpdate := now }

/-- `updateTask(taskId, { papersFound, message })`: the pipeline's
"Preparing to download..." update finalising the found count. -/
def setFoundMessage (t : TaskStatus) (papersFound : ℕ) (message : String)
    (now : ℕ) : TaskStatus :=
  { t with papersFound := papersFound, message := message, lastUpdate := now }

/-- The DOI-lookup progress callback in `processDOISearch`:
`updateTask(taskId, { message, papersFound: current, progress:
Math.round(5 + (current / total) * 40) })`. -/
def doiProgressUpdate (t : TaskStatus) (current total : ℕ) (now : ℕ) : TaskStatus :=
  { t with
      message := s!"Looking up DOI {current}/{total}..."
      papersFound := current
      progress := jsRoundDiv (5 * total + 40 * current) total
      lastUpdate := now }

/-- Paper metadata (`Paper` in the types module); immutable once produced
by metadata search. -/
structure Paper where
  title : String
  journal : String
  year : String
  authors : String
  doi : String
  openAccessUrl : Option String := none
deriving DecidableEq, Repr

/-- `searchProvider`: "Scopus" when a Scopus API key is configured, else
"OpenAlex".  The modelled deployment has no Scopus key; the value only
appears in progress messages. -/
def searchProvider : String := "OpenAlex"

/-- Oracles for the two external collaborators the topic pipeline consumes:
`searchPapers` (metadata search, provider errors already folded into an
empty result list by the service) and `generateSearchQueries` used for
broadening, taking the requested count and the papers found so far. -/
structure TopicEnv where
  search : String → List Paper
  broaden : ℕ → List Paper → List String

/-- The dedup accumulation loop of `processTopicSearch`: for each returned
paper, append it only if its DOI is not in `seenDois`, and stop as soon as
the running collection reaches the target count.  Returns the extended
`(seenDois, allPapers)`. -/
def dedupFold (results : List Paper) (seen : List String) (acc : List Paper)
    (target : ℕ) : List String × List Paper :=
  match results with
  | [] => (seen, acc)
  | p :: rest =>
    if p.doi ∈ seen then dedupFold rest seen acc target
    else
      let seen' := p.doi :: seen
      let acc' := acc ++ [p]
      if target ≤ acc'.length then (seen', acc')
      else dedupFold rest seen' acc' target

/-- The mutable state of the `processTopicSearch` cycle loop: the (splice-
mutable) query schedule, the loop index, the accumulated papers, the dedup
set, the task record, the chronological list of store states after each
update, and the clock for `lastUpdate`. -/
structure TopicState where
  queries : List String
  cycle : ℕ
  allPapers : List Paper
  seenDois : List String
  task : TaskStatus
  trace : List TaskStatus
  time : ℕ
deriving Repr

/-- One iteration of the `processTopicSearch` cycle loop (executed when
`cycle < queries.length` and the target is not yet reached): report cycle
progress, run the query, dedup-accumulate, then — exactly when
`cycle === Math.floor(cycles / 2)` and the accumulated count is below 80%
of target (`allPapers.length < papers * 0.8`, exact for the clamped ranges
as `5 * length < 4 * papers`) — request `cycles - cycle - 1` broader
queries and splice them over the not-yet-executed tail of the schedule. -/
def cycleStep (env : TopicEnv) (papers cycles : ℕ) (s : TopicState) : TopicState :=
  let query := s.queries.getD s.cycle ""
  let t1 := updateCycleProgress s.task
    (s!"Cycle {s.cycle + 1}/{cycles}: Searching {searchProvider}...")
    (s.cycle + 1) s.allPapers.length s.time
  let results := env.search query
  let seen' := (dedupFold results s.seenDois s.allPapers papers).1
  let all' := (dedupFold results s.seenDois s.allPapers papers).2
  let halfwayCycle := cycles / 2
  if s.cycle = halfwayCycle ∧ 5 * all'.length < 4 * papers then
    let t2 := setMessage t1 "Broadening search scope..." (s.time + 1)
    let broaderQueries := env.broaden (cycles - s.cycle - 1) all'
    { queries := s.queries.take (s.cycle + 1) ++ broaderQueries
      cycle := s.cycle + 1
      allPapers := all'
      seenDois := seen'
      task := t2
      trace := s.trace ++ [t1, t2]
      time := s.time + 2 }
  else
    { s with
        cycle := s.cycle + 1
        allPapers := all'
        seenDois := seen'
        task := t1
        trace := s.trace ++ [t1]
        time := s.time + 1 }

/-- The `for (let cycle = 0; cycle < searchQueries.length; cycle++)` loop of
`processTopicSearch`, with its `break` once the target count is reached.
`fuel` bounds the number of iterations; since the broadening splice fires
at most once, any fuel at least the final schedule length yields the
complete run, and every theorem below holds for all fuel values. -/
def runTopicLoop (env : TopicEnv) (papers cycles : ℕ) :
    ℕ → TopicState → TopicState
  | 0, s => s
  | fuel + 1, s =>
    if s.cycle < s.queries.length then
      if papers ≤ s.allPapers.length then s
      else runTopicLoop env papers cycles fuel (cycleStep env papers cycles s)
    else s

/-- Byte buffers (`Buffer` values), as lists of byte values. -/
abbrev Buffer := List ℕ

/-- JS truthiness of an optional string: false for `undefined` and `""`. -/
def jsTruthyStr (x : Option String) : Bool :=
  match x with
  | some s => s ≠ ""
  | none => false

/-- The fixed download-source enumeration (`DownloadSource`). -/
inductive DownloadSource
  | scihub
  | annasArchive
  | libgen
  | unpaywall
  | openalexOA
  | doiDirect
deriving DecidableEq, Repr

/-- The string identifier of each source as it appears in the TS union. -/
def sourceName : DownloadSource → String
  | .scihub => "scihub"
  | .annasArchive => "annas-archive"
  | .libgen => "libgen"
  | .unpaywall => "unpaywall"
  | .openalexOA => "openalex-oa"
  | .doiDirect => "doi-direct"

/-- The outcome of one adapter's `download()` promise as observed by the
racer: a buffer, a resolved `null`, or a rejection (caught by the racer). -/
inductive AttemptOutcome
  | ok (buffer : Buffer)
  | notFound
  | thrown (msg : String)
deriving DecidableEq, Repr

/-- A `DownloadAttempt`: the source identifier together with (the outcome
of) its producer function. -/
structure DownloadAttempt where
  source : DownloadSource
  outcome : AttemptOutcome
deriving DecidableEq, Repr

/-- The per-attempt wrapper in `raceDownloads`: await the producer, map a
buffer to `{ buffer, source }`, and both `null` and a thrown error to
`null`. -/
def wrapAttempt (a : DownloadAttempt) : Option (Buffer × DownloadSource) :=
  match a.outcome with
  | .ok b => some (b, a.source)
  | .notFound => none
  | .thrown _ => none

/-- The first-truthy scan over the `Promise.all` results. -/
def firstSome {α : Type} : List (Option α) → Option α
  | [] => none
  | some x :: _ => some x
  | none :: rest => firstSome rest

/-- `raceDownloads`: `Promise.all` over all wrapped attempts (so every
launched adapter runs to completion and order is launch order, independent
of completion timing), then return the first success, or `null` when the
attempt list is empty or every attempt failed. -/
def raceDownloads (attempts : List DownloadAttempt) :
    Option (Buffer × DownloadSource) :=
  match attempts with
  | [] => none
  | _ => firstSome (attempts.map wrapAttempt)

/-- `createDownloadAttempts`: the launch-ordered attempt list built from
the enabled source set; the OpenAlex-OA adapter is included only when the
paper carries a (truthy) open-access URL.  `fetchOut` is the oracle giving
each producer's outcome. -/
def createDownloadAttempts (fetchOut : DownloadSource → AttemptOutcome)
    (paper : Paper) (enabledSources : List DownloadSource) :
    List DownloadAttempt :=
  (if DownloadSource.openalexOA ∈ enabledSources ∧ jsTruthyStr paper.openAccessUrl then
    [⟨.openalexOA, fetchOut .openalexOA⟩] else []) ++
  (if DownloadSource.unpaywall ∈ enabledSources then
    [⟨.unpaywall, fetchOut .unpaywall⟩] else []) ++
  (if DownloadSource.scihub ∈ enabledSources then
    [⟨.scihub, fetchOut .scihub⟩] else []) ++
  (if DownloadSource.libgen ∈ enabledSources then
    [⟨.libgen, fetchOut .libgen⟩] else []) ++
  (if DownloadSource.annasArchive ∈ enabledSources then
    [⟨.annasArchive, fetchOut .annasArchive⟩] else [])

/-- Collapse every maximal run of characters satisfying `p` into the single
replacement `r` (one regex `replace(/X+/g, r)` pass). -/
def collapseRuns (p : Char → Bool) (r : Char) : List Char → Bool → List Char
  | [], _ => []
  | c :: rest, inRun =>
    if p c then
      if inRun then collapseRuns p r rest true
      else r :: collapseRuns p r rest true
    else c :: collapseRuns p r rest false

/-- `createSafeFilename`: replace characters outside `[a-zA-Z0-9 \-_]` by
`_`, collapse whitespace runs and `_` runs to single `_`, cap the length,
trim, and drop one trailing `_`. -/
def createSafeFilename (title : String) (maxLength : ℕ := 100) : String :=
  let s1 := title.data.map fun c =>
    if c.isAlphanum ∨ c = ' ' ∨ c = '-' ∨ c = '_' then c else '_'
  let s2 := collapseRuns (fun c => c.isWhitespace) '_' s1 false
  let s3 := collapseRuns (fun c => c = '_') '_' s2 false
  let s4 := (jsTrim (String.mk (s3.take maxLength))).data
  String.mk (if s4.getLast? = some '_' then s4.dropLast else s4)

/-- `DownloadResult`: produced once per item by the racer. -/
structure DownloadResult where
  success : Bool
  source : Option DownloadSource := none
  filePath : Option String := none
  error : Option String := none
deriving DecidableEq, Repr

/-- A `FailedDownload` record accumulated per task for reporting. -/
structure FailedDownload where
  paper : Paper
  error : String
  attemptedSources : List DownloadSource
deriving DecidableEq, Repr

/-- The error message listing every attempted source. -/
def allSourcesFailedMsg (attempts : List DownloadAttempt) : String :=
  let sep := ", "
  let names := String.intercalate sep (attempts.map fun a => sourceName a.source)
  s!"Failed to download from all sources: {names}"

/-- `downloadAndSavePaper`: build the attempt list, race it, and on success
persist the buffer under the title-derived filename.  Returns the
`DownloadResult` together with the file written (the filesystem write is
modelled as always succeeding).  On failure nothing is written. -/
def downloadAndSavePaper (fetchOut : DownloadSource → AttemptOutcome)
    (paper : Paper) (outputDir : String)
    (enabledSources : List DownloadSource) :
    DownloadResult × Option (String × Buffer) :=
  let attempts := createDownloadAttempts fetchOut paper enabledSources
  if attempts.length = 0 then
    (⟨false, none, none, some "No download sources configured"⟩, none)
  else
    match raceDownloads attempts with
    | none => (⟨false, none, none, some (allSourcesFailedMsg attempts)⟩, none)
    | some (b, src) =>
      let filePath := s!"{outputDir}/{createSafeFilename paper.title}.pdf"
      (⟨true, some src, some filePath, none⟩, some (filePath, b))

/-- The accumulated result of `downloadPapers`: the successful file paths,
the `FailedDownload` records, and the files actually written to disk. -/
structure DownloadBatch where
  successful : List String
  failed : List FailedDownload
  saved : List (String × Buffer)
deriving DecidableEq, Repr

/-- The sequential item loop of `downloadPapers`, fused with the
`onProgress` callback that `processResults` passes (which calls
`updateDownloadProgress(taskId, current, total)` after every item): items
without a (truthy) DOI are recorded failed with an empty attempted-source
list; items whose race fails are recorded failed with the full enabled
source set; successes accumulate their file path. -/
def downloadPapersGo (fetchOut : Paper → DownloadSource → AttemptOutcome)
    (enabledSources : List DownloadSource) (papersDir : String) (total : ℕ) :
    List Paper → ℕ → TaskStatus → List TaskStatus → ℕ →
    DownloadBatch × TaskStatus × List TaskStatus × ℕ
  | [], _, t, tr, time => (⟨[], [], []⟩, t, tr, time)
  | p :: rest, i, t, tr, time =>
    if jsTruthyStr (some p.doi) = false then
      let t' := updateDownloadProgress t (i + 1) total time
      let r :=
        downloadPapersGo fetchOut enabledSources papersDir total rest (i + 1)
          t' (tr ++ [t']) (time + 1)
      (⟨r.1.successful, ⟨p, "No DOI available", []⟩ :: r.1.failed, r.1.saved⟩, r.2)
    else
      let dr := downloadAndSavePaper (fetchOut p) p papersDir enabledSources
      let t' := updateDownloadProgress t (i + 1) total time
      let r :=
        downloadPapersGo fetchOut enabledSources papersDir total rest (i + 1)
          t' (tr ++ [t']) (time + 1)
      let savedNow := match dr.2 with
        | some sv => sv :: r.1.saved
        | none => r.1.saved
      if dr.1.success && dr.1.filePath.isSome then
        (⟨dr.1.filePath.getD "" :: r.1.successful, r.1.failed, savedNow⟩, r.2)
      else
        (⟨r.1.successful,
          ⟨p, jsOrStr dr.1.error "Unknown error", enabledSources⟩ :: r.1.failed,
          savedNow⟩, r.2)

/-- `downloadPapers` with the `processResults` progress callback: items are
processed strictly sequentially while each item races its sources. -/
def downloadPapersRun (fetchOut : Paper → DownloadSource → AttemptOutcome)
    (enabledSources : List DownloadSource) (outputDir : String)
    (papersList : List Paper) (t : TaskStatus) (tr : List TaskStatus)
    (time : ℕ) : DownloadBatch × TaskStatus × List TaskStatus × ℕ :=
  downloadPapersGo fetchOut enabledSources (s!"{outputDir}/papers")
    papersList.length papersList 0 t tr time

/-- The result of one full pipeline run: the final task record, the
chronological list of every store state (starting from creation), the
accumulated paper collection and the download batch. -/
structure PipeResult where
  task : TaskStatus
  trace : List TaskStatus
  allPapers : List Paper
  batch : DownloadBatch
deriving Repr

/-- `processResults`: on a full download, set the fixed progress 50 and run
the download driver; then the fixed progress 95 (metadata), on a full
download the fixed progress 98 (ZIP), and finally `completeTask`. -/
def processResultsRun (fetchOut : Paper → DownloadSource → AttemptOutcome)
    (enabledSources : List DownloadSource) (dlFull : Bool) (taskId : String)
    (papersList : List Paper) (t : TaskStatus) (tr : List TaskStatus)
    (time : ℕ) : PipeResult :=
  if dlFull then
    let tA := setMessageProgress t "Downloading papers..." 50 time
    let r := downloadPapersRun fetchOut enabledSources (s!"tasks/{taskId}")
      papersList tA (tr ++ [tA]) (time + 1)
    let tB := setMessageProgress r.2.1 "Generating metadata..." 95 r.2.2.2
    let tC := setMessageProgress tB "Creating ZIP archive..." 98 (r.2.2.2 + 1)
    let tD := completeTask tC (some s!"/api/download/{taskId}/zip")
      (some s!"/api/download/{taskId}/metadata") (r.2.2.2 + 2)
    ⟨tD, r.2.2.1 ++ [tB, tC, tD], papersList, r.1⟩
  else
    let tB := setMessageProgress t "Generating metadata..." 95 time
    let tD := completeTask tB none (some s!"/api/download/{taskId}/metadata")
      (time + 1)
    ⟨tD, tr ++ [tB, tD], papersList, ⟨[], [], []⟩⟩

/-- The loop state at the start of `processTopicSearch`: the task freshly
created by the search API route (with the same clamped `papers` and
`cycles` passed to both `createTask` and the processor) and then marked
processing, an empty collection and dedup set, and the initial query
schedule. -/
def topicInitState (qs0 : List String) (papers cycles : ℕ) : TopicState :=
  let t0 := createTask papers cycles 0
  let t1 := startProcessing t0 "Generating search queries..." 1
  ⟨qs0, 0, [], [], t1, [t0, t1], 2⟩

/-- `processTopicSearch` end to end: run the cycle loop, fail when nothing
was found, otherwise finalise `papersFound` and process results. -/
def processTopicSearchRun (env : TopicEnv)
    (fetchOut : Paper → DownloadSource → AttemptOutcome)
    (enabledSources : List DownloadSource) (taskId : String)
    (qs0 : List String) (papers cycles : ℕ) (dlFull : Bool) (fuel : ℕ) :
    PipeResult :=
  let s := runTopicLoop env papers cycles fuel (topicInitState qs0 papers cycles)
  if s.allPapers.length = 0 then
    let tf := failTask s.task "No papers found" s.time
    ⟨tf, s.trace ++ [tf], s.allPapers, ⟨[], [], []⟩⟩
  else
    let t2 := setFoundMessage s.task s.allPapers.length
      "Preparing to download..." s.time
    processResultsRun fetchOut enabledSources dlFull taskId s.allPapers t2
      (s.trace ++ [t2]) (s.time + 1)

/-- `cleanDoi` before its final validation: trim, strip one leading `@`,
and when the text mentions `doi.org/` keep the part after the last
occurrence (`split('doi.org/').pop() || ''`). -/
def jsCleanForm (doiText : String) : String :=
  let c0 := jsTrim doiText
  let c1 := if jsStartsWith c0 "@" then String.mk (c0.data.drop 1) else c0
  if jsIncludes c1 "doi.org/" then String.mk (afterLast "doi.org/".data c1.data)
  else c1

/-- `cleanDoi`: the cleaned form when it starts with `10.`, else `null`. -/
def cleanDoi (doiText : String) : Option String :=
  let cleaned := jsCleanForm doiText
  if jsStartsWith cleaned "10." then some cleaned else none

/-- The per-DOI lookup loop shared by `processDOIList` (Scopus and OpenAlex
variants have the same structure): look up each valid DOI in order, keep
non-`null` papers, and fire the progress callback — which in
`processDOISearch` sets `papersFound := current` — after every entry. -/
def doiLookupLoop (lookup : String → Option Paper) (total : ℕ) :
    List String → ℕ → List Paper → TaskStatus → List TaskStatus → ℕ →
    List Paper × TaskStatus × List TaskStatus × ℕ
  | [], _, acc, t, tr, time => (acc, t, tr, time)
  | d :: rest, i, acc, t, tr, time =>
    let acc' := match lookup d with
      | some p => acc ++ [p]
      | none => acc
    let t' := doiProgressUpdate t (i + 1) total time
    doiLookupLoop lookup total rest (i + 1) acc' t' (tr ++ [t']) (time + 1)

/-- `processDOISearch` end to end: the task is created by the API route
with the clamped `papers`/`cycles` form values (defaults 20/3), which are
unrelated to the DOI list; the DOI list is cleaned and filtered, looked up
entry by entry, and the pipeline fails when no paper at all was found,
otherwise finalises `papersFound` and processes results. -/
def processDOISearchRun (lookup : String → Option Paper)
    (fetchOut : Paper → DownloadSource → AttemptOutcome)
    (enabledSources : List DownloadSource) (taskId : String)
    (dois : List String) (papersParam cyclesParam : ℕ) (dlFull : Bool) :
    PipeResult :=
  let t0 := createTask papersParam cyclesParam 0
  let t1 := startProcessing t0 "Processing DOI list..." 1
  let validDois := dois.filterMap cleanDoi
  let r := doiLookupLoop lookup validDois.length validDois 0 [] t1 [t0, t1] 2
  if r.1.length = 0 then
    let tf := failTask r.2.1 "No valid papers found from DOI list" r.2.2.2
    ⟨tf, r.2.2.1 ++ [tf], r.1, ⟨[], [], []⟩⟩
  else
    let t3 := setFoundMessage r.2.1 r.1.length "Preparing to download..." r.2.2.2
    processResultsRun fetchOut enabledSources dlFull taskId r.1 t3
      (r.2.2.1 ++ [t3]) (r.2.2.2 + 1)

/-- The `%PDF` magic signature. -/
def pdfMagic : Buffer := [0x25, 0x50, 0x44, 0x46]

/-- Whether a buffer's first four bytes are the `%PDF` signature.  This
renders both byte-wise checks (`bytes[0] === 0x25 && ...`) and the
`buffer.slice(0, 4).toString() === '%PDF'` form, which agree since UTF-8
decoding yields `%PDF` exactly for these four bytes. -/
def hasPdfMagic (b : Buffer) : Bool := decide (b.take 4 = pdfMagic)

/-- `isPdf` (the validator used by the Sci-Hub adapter): the content-type
header, when present, lower-cased contains `pdf`, or the magic bytes
match. -/
def isPdf (content : Buffer) (contentType : Option String) : Bool :=
  (match contentType with
    | some ct => jsIncludes (jsToLower ct) "pdf"
    | none => false) || hasPdfMagic content

/-- Acceptance predicate of `downloadFromOpenAlexOA` on a fetched response:
the buffer is returned exactly when its leading bytes are `%PDF`; the
content-type header is never consulted. -/
def acceptOpenAlexOA (_contentType : String) (b : Buffer) : Bool :=
  hasPdfMagic b

/-- Acceptance predicate of `downloadFromUnpaywall` on the fetched OA
response: content-type contains `pdf` (case-sensitive) or magic bytes. -/
def acceptUnpaywall (contentType : String) (b : Buffer) : Bool :=
  jsIncludes contentType "pdf" || hasPdfMagic b

/-- Acceptance predicate of the Sci-Hub adapter on a fetched PDF response:
`isPdf(content, contentType)`. -/
def acceptScihub (contentType : String) (b : Buffer) : Bool :=
  isPdf b (some contentType)

/-- Acceptance predicate of the LibGen adapter's `tryDownloadFromUrl` at
the accepting fetch: an `html` content-type diverts to link-scraping, a
`pdf`/`octet-stream` content-type is required, and the magic bytes must
match on top of it. -/
def acceptLibgen (contentType : String) (b : Buffer) : Bool :=
  !jsIncludes contentType "html" &&
    (jsIncludes contentType "pdf" || jsIncludes contentType "octet-stream") &&
    hasPdfMagic b

/-- Acceptance predicate of the Anna's-Archive adapter: `tryDownload`
returns the buffer for a `pdf`/`octet-stream` content-type, and
`downloadFromAnnas` then additionally requires the magic bytes. -/
def acceptAnnas (contentType : String) (b : Buffer) : Bool :=
  (jsIncludes contentType "pdf" || jsIncludes contentType "octet-stream") &&
    hasPdfMagic b

/-- The disjunct named by the spec: the content-type header indicates a
PDF (case-insensitively) or the byte stream opens with the magic bytes. -/
def specValidation (contentType : String) (b : Buffer) : Bool :=
  jsIncludes (jsToLower contentType) "pdf" || hasPdfMagic b

/-- Outcome of a `fetch` + JSON parse against a metadata provider: a
parsed body from an ok response, a non-ok HTTP status, or a thrown
network/parse error. -/
inductive FetchOutcome (α : Type)
  | ok (val : α)
  | httpError (status : ℕ)
  | netError (msg : String)
deriving DecidableEq, Repr

/-- One entry of a Scopus search response (all fields optional). -/
structure ScopusEntry where
  title : Option String := none
  creator : Option String := none
  publicationName : Option String := none
  coverDate : Option String := none
  doi : Option String := none
deriving DecidableEq, Repr

/-- The placeholder paper returned for a DOI the provider has no record
for. -/
def notFoundPaper (doi : String) : Paper :=
  { title := "Title Not Found"
    journal := "Unknown Journal"
    year := "Unknown Year"
    authors := "Unknown Authors"
    doi := doi }

/-- `coverDate?.split('-')[0] || 'Unknown Year'`. -/
def jsYearOf (coverDate : Option String) : String :=
  jsOrStr (coverDate.map fun s => String.mk (beforeFirst "-".data s.data))
    "Unknown Year"

/-- `lookupByDoi` (Scopus variant) on the provider response: `null` on a
non-ok status or a thrown error; the placeholder when the response is ok
but has no entry or the first entry's title is falsy; otherwise the entry
mapped to a `Paper` carrying the queried DOI. -/
def lookupByDoiScopusM (resp : FetchOutcome (List ScopusEntry))
    (doi : String) : Option Paper :=
  match resp with
  | .httpError _ => none
  | .netError _ => none
  | .ok entries =>
    match entries with
    | [] => some (notFoundPaper doi)
    | e :: _ =>
      if jsTruthyStr e.title then
        some { title := jsOrStr e.title "Unknown Title"
               journal := jsOrStr e.publicationName "Unknown Journal"
               year := jsYearOf e.coverDate
               authors := jsOrStr e.creator "Unknown Authors"
               doi := doi }
      else some (notFoundPaper doi)

/-- An OpenAlex work as consumed by `lookupByDoiOpenAlex`:
`authorNames` is `authorships?.map(a => a.author?.display_name)`. -/
structure OpenAlexWork where
  title : Option String := none
  sourceDisplayName : Option String := none
  publicationYear : Option ℕ := none
  authorNames : Option (List (Option String)) := none
  oaUrl : Option String := none
deriving DecidableEq, Repr

/-- `authorships?.slice(0, 3).map(...).filter(Boolean).join(', ') ||
'Unknown Authors'`. -/
def joinAuthors (a : Option (List (Option String))) : String :=
  jsOrStr
    (a.map fun l =>
      String.intercalate ", " (((l.take 3).filterMap id).filter fun s => s ≠ ""))
    "Unknown Authors"

/-- `work.open_access?.oa_url || undefined`. -/
def jsUrlOpt (x : Option String) : Option String :=
  match x with
  | some s => if s = "" then none else some s
  | none => none

/-- `lookupByDoiOpenAlex` on the provider response: the placeholder on a
404 (provider answered: no such record), `null` on any other non-ok status
or thrown error, and the work mapped to a `Paper` on an ok response. -/
def lookupByDoiOpenAlexM (resp : FetchOutcome OpenAlexWork)
    (doi : String) : Option Paper :=
  match resp with
  | .httpError status =>
    if status = 404 then some (notFoundPaper doi) else none
  | .netError _ => none
  | .ok work =>
    some { title := jsOrStr work.title "Unknown Title"
           journal := jsOrStr work.sourceDisplayName "Unknown Journal"
           year := jsOrStr (work.publicationYear.map toString) "Unknown Year"
           authors := joinAuthors work.authorNames
           doi := doi
           openAccessUrl := jsUrlOpt work.oaUrl }

/-- The progress values of a run's store-state trace, in order. -/
def progressTrace (r : PipeResult) : List ℕ := r.trace.map (·.progress)

/-- Boolean non-decreasing check on a list of progress values. -/
def nonDecreasing : List ℕ → Bool
  | [] => true
  | [_] => true
  | a :: b :: rest => a ≤ b && nonDecreasing (b :: rest)

/-- Concrete fixture paper. -/
def paperA : Paper :=
  { title := "T", journal := "J", year := "2020", authors := "A", doi := "10.1/a" }

/-- Fixture environment: every query returns the same single paper. -/
def envOne : TopicEnv :=
  { search := fun _ => [paperA]
    broaden := fun k _ => (List.range k).map fun i => s!"b{i}" }

/-- Fixture run for the progress trace: topic search, one cycle, target 1,
full download, all download sources failing. -/
def c1Run : PipeResult :=
  processTopicSearchRun envOne (fun _ _ => .notFound)
    [DownloadSource.unpaywall, .scihub, .libgen] "tid" ["q0"] 1 1 true 2

/-- Fixture run for the found-count bound: DOI pipeline on two valid DOIs
with the task created for a requested target of 1 (the API route's clamped
`papers` form value, which is independent of the DOI list). -/
def c2Run : PipeResult :=
  processDOISearchRun (fun d => some (notFoundPaper d)) (fun _ _ => .notFound)
    [DownloadSource.unpaywall] "tid" ["10.1/a", "10.2/b"] 1 3 false

/-- Fixture environment yielding one fresh unique paper per query. -/
def envPerQuery : TopicEnv :=
  { search := fun q =>
      [{ title := q, journal := "J", year := "2020", authors := "A", doi := q }]
    broaden := fun k _ => (List.range k).map fun i => s!"b{i}" }

/-- Ten scheduled queries `q0 … q9`. -/
def qs10 : List String := (List.range 10).map fun i => s!"q{i}"

/-- The loop state of a `totalCycles = 10`, target 20 run (one unique paper
per query, so yield stays below 80% of target) right before the broadening
check fires: five iterations done. -/
def c3Before : TopicState :=
  runTopicLoop envPerQuery 20 10 5 (topicInitState qs10 20 10)

/-- The same run after the sixth iteration — the one processing the query
at index `floor(10 / 2) = 5`, whose end-of-iteration check triggers the
broadening splice. -/
def c3After : TopicState :=
  runTopicLoop envPerQuery 20 10 6 (topicInitState qs10 20 10)

/-- Bytes of the ASCII text `hello`: not a PDF. -/
def helloBytes : Buffer := [0x68, 0x65, 0x6C, 0x6C, 0x6F]

/-- Five DOI-list entries of which exactly two are invalid (their cleaned
form does not start with `10.`). -/
def dois5 : List String :=
  ["10.1000/x", "not-a-doi", "https://doi.org/10.2000/y", "@10.3000/z", "junk"]

/-- Fixture attempt list for the racer: the first adapter resolves `null`,
the second succeeds, the third throws, the fourth also succeeds. -/
def fixtureAttempts : List DownloadAttempt :=
  [⟨.unpaywall, .notFound⟩, ⟨.scihub, .ok [1, 2]⟩, ⟨.libgen, .thrown "boom"⟩,
   ⟨.annasArchive, .ok [3]⟩]

/-- The batch component of `downloadPapersGo` alone (specification-side
restatement; `downloadPapersGo_batch` proves it agrees with the embedded
loop, whose batch does not depend on the threaded task state). -/
def downloadBatchOf (fetchOut : Paper → DownloadSource → AttemptOutcome)
    (enabledSources : List DownloadSource) (papersDir : String) :
    List Paper → DownloadBatch
  | [] => ⟨[], [], []⟩
  | p :: rest =>
    let b := downloadBatchOf fetchOut enabledSources papersDir rest
    if jsTruthyStr (some p.doi) = false then
      ⟨b.successful, ⟨p, "No DOI available", []⟩ :: b.failed, b.saved⟩
    else
      let dr := downloadAndSavePaper (fetchOut p) p papersDir enabledSources
      let savedNow := match dr.2 with
        | some sv => sv :: b.saved
        | none => b.saved
      if dr.1.success && dr.1.filePath.isSome then
        ⟨dr.1.filePath.getD "" :: b.successful, b.failed, savedNow⟩
      else
        ⟨b.successful,
          ⟨p, jsOrStr dr.1.error "Unknown error", enabledSources⟩ :: b.failed,
          savedNow⟩

/-- The invariant carried by the topic-search cycle loop: the collection is
DOI-deduplicated, covered by the dedup set, and bounded by the target, and
the task (and every store state reported so far) has `papersFound` within
the target and the target stored as `totalPapers`. -/
def TopicLoopInv (papers : ℕ) (s : TopicState) : Prop :=
  (s.allPapers.map (·.doi)).Nodup ∧
  (∀ p ∈ s.allPapers, p.doi ∈ s.seenDois) ∧
  s.allPapers.length ≤ papers ∧
  s.task.papersFound ≤ papers ∧
  s.task.totalPapers = papers ∧
  (∀ x ∈ s.trace, x.papersFound ≤ papers ∧ x.totalPapers = papers)

/-! ## Helper lemmas -/

theorem infix_map {α β : Type} (f : α → β) {l₁ l₂ : List α}
    (h : l₁ <:+: l₂) : l₁.map f <:+: l₂.map f := by
  obtain ⟨s, t, rfl⟩ := h
  exact ⟨s.map f, t.map f, by simp⟩

theorem jsIncludes_toLower_pdf {s : String} (h : jsIncludes s "pdf" = true) :
    jsIncludes (jsToLower s) "pdf" = true := by
  have h' : "pdf".data <:+: s.data := of_decide_eq_true h
  have hm := infix_map Char.toLower h'
  have hpdf : "pdf".data.map Char.toLower = "pdf".data := by decide
  rw [hpdf] at hm
  exact decide_eq_true hm

theorem firstSome_eq_none_iff {α : Type} (l : List (Option α)) :
    firstSome l = none ↔ ∀ x ∈ l, x = none := by
  induction l with
  | nil => simp [firstSome]
  | cons x rest ih =>
    cases x with
    | some v => simp [firstSome]
    | none => simpa [firstSome] using ih

theorem firstSome_of_first {α : Type} (l : List (Option α)) (i : ℕ)
    (hi : i < l.length) (v : α)
    (hprev : ∀ j (hj : j < l.length), j < i → l.get ⟨j, hj⟩ = none)
    (hvi : l.get ⟨i, hi⟩ = some v) :
    firstSome l = some v := by
  induction l generalizing i with
  | nil => simp at hi
  | cons x rest ih =>
    cases i with
    | zero =>
      simp only [List.get] at hvi
      subst hvi
      simp [firstSome]
    | succ n =>
      have hx : x = none := hprev 0 (Nat.succ_pos _) (Nat.succ_pos n)
      subst hx
      have hn : n < rest.length := Nat.lt_of_succ_lt_succ hi
      simp only [firstSome]
      exact ih n hn
        (fun j hj hlt =>
          hprev (j + 1) (Nat.succ_lt_succ hj) (Nat.succ_lt_succ hlt))
        hvi

theorem raceDownloads_none_of_all_fail (attempts : List DownloadAttempt)
    (h : ∀ a ∈ attempts, wrapAttempt a = none) :
    raceDownloads attempts = none := by
  match attempts with
  | [] => rfl
  | x :: rest =>
    show firstSome ((x :: rest).map wrapAttempt) = none
    rw [firstSome_eq_none_iff]
    simpa using h

theorem downloadAndSavePaper_all_fail (f : DownloadSource → AttemptOutcome)
    (p : Paper) (dir : String) (enabled : List DownloadSource)
    (hfail : ∀ a ∈ createDownloadAttempts f p enabled, wrapAttempt a = none) :
    (downloadAndSavePaper f p dir enabled).1.success = false ∧
    (downloadAndSavePaper f p dir enabled).1.error.isSome = true ∧
    (downloadAndSavePaper f p dir enabled).2 = none := by
  have hrace := raceDownloads_none_of_all_fail _ hfail
  simp only [downloadAndSavePaper]
  split
  · simp
  · rw [hrace]
    simp

theorem downloadPapersGo_batch (f : Paper → DownloadSource → AttemptOutcome)
    (enabled : List DownloadSource) (dir : String) (l : List Paper) :
    ∀ total i t tr time,
    (downloadPapersGo f enabled dir total l i t tr time).1 =
      downloadBatchOf f enabled dir l := by
  induction l with
  | nil => intro total i t tr time; rfl
  | cons p rest ih =>
    intro total i t tr time
    simp only [downloadPapersGo, downloadBatchOf, ih]
    split
    · rfl
    · split
      · rfl
      · rfl

theorem length_filterMap_all_some {α β : Type} (f : α → Option β)
    (l : List α) (h : ∀ x ∈ l, (f x).isSome) :
    (l.filterMap f).length = l.length := by
  induction l with
  | nil => rfl
  | cons x rest ih =>
    have hx := h x (List.mem_cons_self x rest)
    obtain ⟨y, hy⟩ := Option.isSome_iff_exists.mp hx
    rw [List.filterMap_cons, hy]
    simp only [List.length_cons]
    rw [ih fun z hz => h z (List.mem_cons_of_mem x hz)]

theorem dedupFold_inv (results : List Paper) :
    ∀ (seen : List String) (acc : List Paper) (target : ℕ),
    (acc.map (·.doi)).Nodup →
    (∀ p ∈ acc, p.doi ∈ seen) →
    (((dedupFold results seen acc target).2.map (·.doi)).Nodup ∧
     (∀ p ∈ (dedupFold results seen acc target).2,
        p.doi ∈ (dedupFold results seen acc target).1) ∧
     (acc.length < target →
        (dedupFold results seen acc target).2.length ≤ target)) := by
  induction results with
  | nil =>
    intro seen acc target hnd hsub
    exact ⟨hnd, hsub, fun h => Nat.le_of_lt h⟩
  | cons p rest ih =>
    intro seen acc target hnd hsub
    simp only [dedupFold]
    split
    · exact ih seen acc target hnd hsub
    · rename_i hmem
      have hnotacc : p.doi ∉ acc.map (·.doi) := by
        intro hc
        obtain ⟨q, hq, hqd⟩ := List.mem_map.mp hc
        exact hmem (hqd ▸ hsub q hq)
      have hnd' : ((acc ++ [p]).map (·.doi)).Nodup := by
        rw [List.map_append, List.nodup_append]
        exact ⟨hnd, List.nodup_singleton _,
          by simpa [List.disjoint_left] using fun hc => hnotacc hc⟩
      have hsub' : ∀ q ∈ acc ++ [p], q.doi ∈ p.doi :: seen := by
        intro q hq
        rcases List.mem_append.mp hq with hq | hq
        · exact List.mem_cons_of_mem _ (hsub q hq)
        · simp only [List.mem_singleton] at hq
          subst hq
          exact List.mem_cons_self _ _
      split
      · rename_i hstop
        refine ⟨hnd', hsub', fun hlt => ?_⟩
        simpa using Nat.succ_le_of_lt hlt
      · rename_i hgo
        have h := ih (p.doi :: seen) (acc ++ [p]) target hnd' hsub'
        refine ⟨h.1, h.2.1, fun _ => ?_⟩
        exact h.2.2 (Nat.lt_of_not_le fun hc => hgo hc)

theorem cycleStep_inv (env : TopicEnv) (papers cycles : ℕ) (s : TopicState)
    (h : TopicLoopInv papers s) (hlt : s.allPapers.length < papers) :
    TopicLoopInv papers (cycleStep env papers cycles s) := by
  obtain ⟨hnd, hsub, _hlen, _hpf, htp, htr⟩ := h
  have hd := dedupFold_inv (env.search (s.queries.getD s.cycle ""))
    s.seenDois s.allPapers papers hnd hsub
  have hlen' := hd.2.2 hlt
  have ht1pf : (updateCycleProgress s.task
      (s!"Cycle {s.cycle + 1}/{cycles}: Searching {searchProvider}...")
      (s.cycle + 1) s.allPapers.length s.time).papersFound ≤ papers :=
    le_of_lt hlt
  have ht1tp : (updateCycleProgress s.task
      (s!"Cycle {s.cycle + 1}/{cycles}: Searching {searchProvider}...")
      (s.cycle + 1) s.allPapers.length s.time).totalPapers = papers := htp
  simp only [cycleStep]
  split
  · refine ⟨hd.1, hd.2.1, hlen', ?_, ?_, ?_⟩
    · simpa [setMessage] using ht1pf
    · simpa [setMessage] using ht1tp
    · intro x hx
      simp only [List.append_assoc, List.mem_append, List.mem_cons,
        List.mem_singleton] at hx
      rcases hx with hx | hx | hx
      · exact htr x hx
      · subst hx; exact ⟨ht1pf, ht1tp⟩
      · rcases hx with hx | hx
        · subst hx
          constructor
          · simpa [setMessage] using ht1pf
          · simpa [setMessage] using ht1tp
        · cases hx
  · refine ⟨hd.1, hd.2.1, hlen', ht1pf, ht1tp, ?_⟩
    intro x hx
    rcases List.mem_append.mp hx with hx | hx
    · exact htr x hx
    · simp only [List.mem_singleton] at hx
      subst hx
      exact ⟨ht1pf, ht1tp⟩

theorem runTopicLoop_inv (env : TopicEnv) (papers cycles : ℕ) :
    ∀ (fuel : ℕ) (s : TopicState), TopicLoopInv papers s →
    TopicLoopInv papers (runTopicLoop env papers cycles fuel s) := by
  intro fuel
  induction fuel with
  | zero => intro s h; exact h
  | succ n ih =>
    intro s h
    simp only [runTopicLoop]
    split
    · split
      · exact h
      · rename_i hlt
        exact ih _ (cycleStep_inv env papers cycles s h
          (Nat.lt_of_not_le hlt))
    · exact h

theorem downloadPapersGo_task_inv (Q : TaskStatus → Prop)
    (hdl : ∀ t i tot now, Q t → Q (updateDownloadProgress t i tot now))
    (f : Paper → DownloadSource → AttemptOutcome)
    (enabled : List DownloadSource) (dir : String) (total : ℕ)
    (l : List Paper) : ∀ i t tr time, Q t → (∀ x ∈ tr, Q x) →
    Q (downloadPapersGo f enabled dir total l i t tr time).2.1 ∧
    (∀ x ∈ (downloadPapersGo f enabled dir total l i t tr time).2.2.1, Q x) := by
  induction l with
  | nil => intro i t tr time ht htr; exact ⟨ht, htr⟩
  | cons p rest ih =>
    intro i t tr time ht htr
    have htr' : ∀ x ∈ tr ++ [updateDownloadProgress t (i + 1) total time], Q x := by
      intro x hx
      rcases List.mem_append.mp hx with hx | hx
      · exact htr x hx
      · simp only [List.mem_singleton] at hx
        subst hx
        exact hdl _ _ _ _ ht
    simp only [downloadPapersGo]
    split
    · exact ih (i + 1) _ _ (time + 1) (hdl _ _ _ _ ht) htr'
    · split
      · exact ih (i + 1) _ _ (time + 1) (hdl _ _ _ _ ht) htr'
      · exact ih (i + 1) _ _ (time + 1) (hdl _ _ _ _ ht) htr'

theorem processResultsRun_inv (Q : TaskStatus → Prop)
    (hset : ∀ t m p now, Q t → Q (setMessageProgress t m p now))
    (hdl : ∀ t i tot now, Q t → Q (updateDownloadProgress t i tot now))
    (hcomp : ∀ t d m now, Q t → Q (completeTask t d m now))
    (f : Paper → DownloadSource → AttemptOutcome)
    (enabled : List DownloadSource) (dlFull : Bool) (tid : String)
    (ps : List Paper) (t : TaskStatus) (tr : List TaskStatus) (time : ℕ)
    (ht : Q t) (htr : ∀ x ∈ tr, Q x) :
    Q (processResultsRun f enabled dlFull tid ps t tr time).task ∧
    (∀ x ∈ (processResultsRun f enabled dlFull tid ps t tr time).trace, Q x) := by
  cases dlFull with
  | false =>
    simp only [processResultsRun, Bool.false_eq_true, if_false]
    refine ⟨hcomp _ _ _ _ (hset _ _ _ _ ht), ?_⟩
    intro x hx
    rcases List.mem_append.mp hx with hx | hx
    · exact htr x hx
    · rcases List.mem_cons.mp hx with hx | hx
      · subst hx; exact hset _ _ _ _ ht
      · simp only [List.mem_singleton] at hx
        subst hx
        exact hcomp _ _ _ _ (hset _ _ _ _ ht)
  | true =>
    simp only [processResultsRun, if_true]
    have htrA : ∀ x ∈ tr ++ [setMessageProgress t "Downloading papers..." 50 time], Q x := by
      intro x hx
      rcases List.mem_append.mp hx with hx | hx
      · exact htr x hx
      · simp only [List.mem_singleton] at hx
        subst hx
        exact hset _ _ _ _ ht
    have hr := fun dir : String =>
      downloadPapersGo_task_inv Q hdl f enabled dir
        ps.length ps 0 (setMessageProgress t "Downloading papers..." 50 time)
        (tr ++ [setMessageProgress t "Downloading papers..." 50 time]) (time + 1)
        (hset _ _ _ _ ht) htrA
    simp only [downloadPapersRun]
    refine ⟨hcomp _ _ _ _ (hset _ _ _ _ (hset _ _ _ _ (hr _).1)), ?_⟩
    intro x hx
    rcases List.mem_append.mp hx with hx | hx
    · exact (hr _).2 x hx
    · rcases List.mem_cons.mp hx with hx | hx
      · subst hx; exact hset _ _ _ _ (hr _).1
      · rcases List.mem_cons.mp hx with hx | hx
        · subst hx; exact hset _ _ _ _ (hset _ _ _ _ (hr _).1)
        · simp only [List.mem_singleton] at hx
          subst hx
          exact hcomp _ _ _ _ (hset _ _ _ _ (hset _ _ _ _ (hr _).1))

theorem processResultsRun_complete (f : Paper → DownloadSource → AttemptOutcome)
    (enabled : List DownloadSource) (dlFull : Bool) (tid : String)
    (ps : List Paper) (t : TaskStatus) (tr : List TaskStatus) (time : ℕ) :
    (processResultsRun f enabled dlFull tid ps t tr time).task.status = .complete ∧
    (processResultsRun f enabled dlFull tid ps t tr time).task.progress = 100 := by
  cases dlFull <;> simp [processResultsRun, completeTask]

theorem doiLookupLoop_acc (lookup : String → Option Paper) (total : ℕ)
    (l : List String) : ∀ (i : ℕ) (acc : List Paper) (t : TaskStatus)
    (tr : List TaskStatus) (time : ℕ),
    (doiLookupLoop lookup total l i acc t tr time).1 =
      acc ++ l.filterMap lookup := by
  induction l with
  | nil => intro i acc t tr time; simp [doiLookupLoop]
  | cons d rest ih =>
    intro i acc t tr time
    simp only [doiLookupLoop, List.filterMap_cons]
    cases h : lookup d with
    | none => simp only [h]; rw [ih]
    | some p => simp only [h]; rw [ih]; simp

theorem doiLookupLoop_inv (lookup : String → Option Paper) (total : ℕ)
    (l : List String) : ∀ (i : ℕ) (acc : List Paper) (t : TaskStatus)
    (tr : List TaskStatus) (time : ℕ),
    i + l.length ≤ total → t.papersFound ≤ total →
    (∀ x ∈ tr, x.papersFound ≤ total) →
    (doiLookupLoop lookup total l i acc t tr time).2.1.papersFound ≤ total ∧
    (∀ x ∈ (doiLookupLoop lookup total l i acc t tr time).2.2.1,
       x.papersFound ≤ total) := by
  induction l with
  | nil => intro i acc t tr time _ ht htr; exact ⟨ht, htr⟩
  | cons d rest ih =>
    intro i acc t tr time hle ht htr
    have hi1 : i + 1 ≤ total := by
      have := hle
      simp only [List.length_cons] at this
      omega
    have hnew : (doiProgressUpdate t (i + 1) total time).papersFound ≤ total := by
      simpa [doiProgressUpdate] using hi1
    simp only [doiLookupLoop]
    refine ih (i + 1) _ _ _ (time + 1) ?_ hnew ?_
    · simp only [List.length_cons] at hle
      omega
    · intro x hx
      rcases List.mem_append.mp hx with hx | hx
      · exact htr x hx
      · simp only [List.mem_singleton] at hx
        subst hx
        exact hnew

theorem doiLookupLoop_task_nil (lookup : String → Option Paper) (total : ℕ)
    (i : ℕ) (acc : List Paper) (t : TaskStatus) (tr : List TaskStatus)
    (time : ℕ) :
    (doiLookupLoop lookup total [] i acc t tr time).2.1 = t := rfl

theorem processDOISearchRun_allPapers (lookup : String → Option Paper)
    (fetchOut : Paper → DownloadSource → AttemptOutcome)
    (enabled : List DownloadSource) (tid : String) (dois : List String)
    (papersParam cyclesParam : ℕ) (dlFull : Bool) :
    (processDOISearchRun lookup fetchOut enabled tid dois papersParam
        cyclesParam dlFull).allPapers =
      (dois.filterMap cleanDoi).filterMap lookup := by
  simp only [processDOISearchRun]
  rw [doiLookupLoop_acc]
  split
  · simp
  · simp [processResultsRun]
    split <;> simp

theorem downloadPapersGo_task_only (Q : TaskStatus → Prop)
    (hdl : ∀ t i tot now, Q t → Q (updateDownloadProgress t i tot now))
    (f : Paper → DownloadSource → AttemptOutcome)
    (enabled : List DownloadSource) (dir : String) (total : ℕ)
    (l : List Paper) : ∀ (i : ℕ) (t : TaskStatus) (tr : List TaskStatus)
    (time : ℕ), Q t →
    Q (downloadPapersGo f enabled dir total l i t tr time).2.1 := by
  induction l with
  | nil => intro i t tr time ht; exact ht
  | cons p rest ih =>
    intro i t tr time ht
    simp only [downloadPapersGo]
    split
    · exact ih (i + 1) _ _ (time + 1) (hdl _ _ _ _ ht)
    · split
      · exact ih (i + 1) _ _ (time + 1) (hdl _ _ _ _ ht)
      · exact ih (i + 1) _ _ (time + 1) (hdl _ _ _ _ ht)

theorem processResultsRun_task_only (Q : TaskStatus → Prop)
    (hset : ∀ t m p now, Q t → Q (setMessageProgress t m p now))
    (hdl : ∀ t i tot now, Q t → Q (updateDownloadProgress t i tot now))
    (hcomp : ∀ t d m now, Q t → Q (completeTask t d m now))
    (f : Paper → DownloadSource → AttemptOutcome)
    (enabled : List DownloadSource) (dlFull : Bool) (tid : String)
    (ps : List Paper) (t : TaskStatus) (tr : List TaskStatus) (time : ℕ)
    (ht : Q t) :
    Q (processResultsRun f enabled dlFull tid ps t tr time).task := by
  cases dlFull with
  | false =>
    simp only [processResultsRun, Bool.false_eq_true, if_false]
    exact hcomp _ _ _ _ (hset _ _ _ _ ht)
  | true =>
    simp only [processResultsRun, if_true, downloadPapersRun]
    exact hcomp _ _ _ _ (hset _ _ _ _ (hset _ _ _ _
      (downloadPapersGo_task_only Q hdl f enabled _ ps.length ps 0 _ _
        (time + 1) (hset _ _ _ _ ht))))

theorem processResultsRun_task_papersFound
    (f : Paper → DownloadSource → AttemptOutcome)
    (enabled : List DownloadSource) (dlFull : Bool) (tid : String)
    (ps : List Paper) (t : TaskStatus) (tr : List TaskStatus) (time : ℕ) :
    (processResultsRun f enabled dlFull tid ps t tr time).task.papersFound =
      t.papersFound :=
  processResultsRun_task_only (fun x => x.papersFound = t.papersFound)
    (by intro t' m p now h; simpa [setMessageProgress] using h)
    (by intro t' i tot now h; simpa [updateDownloadProgress] using h)
    (by intro t' d m now h; simpa [completeTask] using h)
    f enabled dlFull tid ps t tr time rfl

theorem downloadBatchOf_head_fail (f : Paper → DownloadSource → AttemptOutcome)
    (enabled : List DownloadSource) (dir : String) (p : Paper)
    (post : List Paper) (hdoi : p.doi ≠ "")
    (hfail : ∀ a ∈ createDownloadAttempts (f p) p enabled,
      wrapAttempt a = none) :
    downloadBatchOf f enabled dir (p :: post) =
      ⟨(downloadBatchOf f enabled dir post).successful,
       ⟨p, jsOrStr (downloadAndSavePaper (f p) p dir enabled).1.error
          "Unknown error", enabled⟩ ::
         (downloadBatchOf f enabled dir post).failed,
       (downloadBatchOf f enabled dir post).saved⟩ := by
  have hds := downloadAndSavePaper_all_fail (f p) p dir enabled hfail
  have htruthy : jsTruthyStr (some p.doi) = true := by
    simp [jsTruthyStr, hdoi]
  simp [downloadBatchOf, htruthy, hds.1, hds.2.2]

theorem downloadBatchOf_remove (f : Paper → DownloadSource → AttemptOutcome)
    (enabled : List DownloadSource) (dir : String) (p : Paper)
    (post : List Paper) (hdoi : p.doi ≠ "")
    (hfail : ∀ a ∈ createDownloadAttempts (f p) p enabled,
      wrapAttempt a = none) :
    ∀ pre : List Paper,
    (downloadBatchOf f enabled dir (pre ++ p :: post)).saved =
      (downloadBatchOf f enabled dir (pre ++ post)).saved ∧
    (downloadBatchOf f enabled dir (pre ++ p :: post)).successful =
      (downloadBatchOf f enabled dir (pre ++ post)).successful ∧
    (∃ msg, (⟨p, msg, enabled⟩ : FailedDownload) ∈
      (downloadBatchOf f enabled dir (pre ++ p :: post)).failed) := by
  intro pre
  induction pre with
  | nil =>
    simp only [List.nil_append]
    rw [downloadBatchOf_head_fail f enabled dir p post hdoi hfail]
    exact ⟨rfl, rfl, _, List.mem_cons_self _ _⟩
  | cons q pre' ih =>
    obtain ⟨ihs, ihsucc, msg, ihmem⟩ := ih
    simp only [List.cons_append, downloadBatchOf]
    split
    · exact ⟨ihs, ihsucc, msg, List.mem_cons_of_mem _ ihmem⟩
    · cases hdr : (downloadAndSavePaper (f q) q dir enabled).2 with
      | none =>
        split
        · exact ⟨by simp [hdr, ihs], by simp [ihsucc], msg, ihmem⟩
        · exact ⟨by simp [hdr, ihs], by simp [ihsucc], msg,
            List.mem_cons_of_mem _ ihmem⟩
      | some sv =>
        split
        · exact ⟨by simp [hdr, ihs], by simp [ihsucc], msg, ihmem⟩
        · exact ⟨by simp [hdr, ihs], by simp [ihsucc], msg,
            List.mem_cons_of_mem _ ihmem⟩

theorem topicInitState_inv (qs0 : List String) (papers cycles : ℕ) :
    TopicLoopInv papers (topicInitState qs0 papers cycles) := by
  refine ⟨?_, ?_, ?_, ?_, ?_, ?_⟩ <;>
    simp [TopicLoopInv, topicInitState, startProcessing, createTask]

/-! ## Claim theorems -/

/-- C9: `completeTask` forces the terminal success state with progress
exactly 100, and `failTask` forces the terminal error state while changing
only `status`, `error`, `message` and `lastUpdate` — progress and the
counters `papersFound`, `papersDownloaded`, `currentCycle`, `totalCycles`
(and all remaining fields) are preserved. -/
theorem c9_complete_fail_frame (t : TaskStatus) (d m : Option String)
    (e : String) (now now2 : ℕ) :
    (completeTask t d m now).status = .complete ∧
    (completeTask t d m now).progress = 100 ∧
    (failTask t e now2).status = .error ∧
    (failTask t e now2).error = some e ∧
    (failTask t e now2).message = e ∧
    (failTask t e now2).lastUpdate = now2 ∧
    (failTask t e now2).progress = t.progress ∧
    (failTask t e now2).papersFound = t.papersFound ∧
    (failTask t e now2).papersDownloaded = t.papersDownloaded ∧
    (failTask t e now2).currentCycle = t.currentCycle ∧
    (failTask t e now2).totalCycles = t.totalCycles ∧
    (failTask t e now2).totalPapers = t.totalPapers ∧
    (failTask t e now2).downloadUrl = t.downloadUrl ∧
    (failTask t e now2).metadataUrl = t.metadataUrl := by
  simp [completeTask, failTask]

/-- C1: the pipeline's observable progress is NOT monotone.  In the fixture
run (topic search, one cycle, target 1, full download) the store reports
the progress sequence 0, 5, 90, 90, 50, 100, 95, 98, 100: the cycle phase
reaches 90, after which `processResults` resets progress to its fixed 50,
and after the last `updateDownloadProgress` reports 100 the fixed metadata
update resets it to 95. -/
theorem c1_progress_not_monotone :
    progressTrace c1Run = [0, 5, 90, 90, 50, 100, 95, 98, 100] ∧
    nonDecreasing (progressTrace c1Run) = false ∧
    c1Run.task.status = .complete := by decide

/-- C2 counterexample: in the DOI pipeline the stored `papersFound` exceeds
the requested target.  The task is created with `totalPapers = 1` (the API
route's clamped `papers` form value), yet the two successful DOI lookups
drive `papersFound` to 2. -/
theorem c2_counterexample_doi_exceeds_target :
    c2Run.task.totalPapers = 1 ∧ c2Run.task.papersFound = 2 ∧
    (c2Run.trace.map (·.papersFound)) = [0, 0, 1, 2, 2, 2, 2] := by decide

/-- C3 counterexample: with `totalCycles = 10` and yield below 80% of
target, the splice does NOT leave 5 executed cycles untouched and replace
5 queries.  After the trigger iteration the loop index is 6 — six queries
`q0 … q5` have executed — and the fresh batch is requested with count 4,
so the schedule is `q0 … q5` followed by four fresh queries, not the
claim's `q0 … q4` followed by five fresh ones. -/
theorem c3_counterexample_splice_counts :
    c3Before.cycle = 5 ∧ c3Before.queries = qs10 ∧
    c3After.cycle = 6 ∧ c3After.allPapers.length = 6 ∧
    c3After.queries =
      ["q0", "q1", "q2", "q3", "q4", "q5", "b0", "b1", "b2", "b3"] ∧
    c3After.queries ≠
      ["q0", "q1", "q2", "q3", "q4", "b0", "b1", "b2", "b3", "b4"] := by decide

/-- C5 counterexample: a response whose content-type header indicates a PDF
but whose bytes are not `%PDF` satisfies the spec's disjunct, yet the
OpenAlex-OA adapter rejects it (it validates by magic bytes only), so
"accepts if and only if the disjunct holds" is false. -/
theorem c5_counterexample_contentType_ignored :
    specValidation "application/pdf" helloBytes = true ∧
    acceptOpenAlexOA "application/pdf" helloBytes = false := by decide

/-- C5 amended: validation soundness only.  Every adapter returns a buffer
as success only when the content-type header (case-insensitively) contains
`pdf` or the leading bytes are the `%PDF` signature; the converse fails
(the OpenAlex-OA, LibGen and Anna's-Archive adapters additionally require
the magic signature). -/
theorem c5_amended_validation_sound (ct : String) (b : Buffer) :
    (acceptOpenAlexOA ct b = true → specValidation ct b = true) ∧
    (acceptUnpaywall ct b = true → specValidation ct b = true) ∧
    (acceptScihub ct b = true → specValidation ct b = true) ∧
    (acceptLibgen ct b = true → specValidation ct b = true) ∧
    (acceptAnnas ct b = true → specValidation ct b = true) := by
  refine ⟨?_, ?_, ?_, ?_, ?_⟩
  · intro h
    simp only [acceptOpenAlexOA] at h
    simp [specValidation, h]
  · intro h
    simp only [acceptUnpaywall, Bool.or_eq_true] at h
    rcases h with h | h
    · simp [specValidation, jsIncludes_toLower_pdf h]
    · simp [specValidation, h]
  · intro h
    simpa [acceptScihub, isPdf, specValidation] using h
  · intro h
    simp only [acceptLibgen, Bool.and_eq_true] at h
    simp [specValidation, h.2]
  · intro h
    simp only [acceptAnnas, Bool.and_eq_true] at h
    simp [specValidation, h.2]

/-- Witness for `c5_amended_validation_sound` at a concrete accepted
response. -/
theorem c5_amended_validation_sound_witness :
    acceptUnpaywall "application/pdf" [] = true ∧
    specValidation "application/pdf" [] = true :=
  ⟨by decide, (c5_amended_validation_sound "application/pdf" []).2.1 (by decide)⟩

/-- C4: for a non-empty attempt list the racer (which awaits all wrapped
promises via `Promise.all`, so the result order is launch order and
completion timing is irrelevant) returns the success of the first attempt
in launch order whose producer yields a buffer, and returns failure
exactly when every attempt yields no buffer or throws. -/
theorem c4_race_first_success (attempts : List DownloadAttempt)
    (hne : attempts ≠ []) :
    (∀ i (hi : i < attempts.length) (b : Buffer),
        (∀ j (hj : j < attempts.length), j < i →
          wrapAttempt (attempts.get ⟨j, hj⟩) = none) →
        (attempts.get ⟨i, hi⟩).outcome = .ok b →
        raceDownloads attempts = some (b, (attempts.get ⟨i, hi⟩).source)) ∧
    (raceDownloads attempts = none ↔ ∀ a ∈ attempts, wrapAttempt a = none) := by
  obtain ⟨x, rest, rfl⟩ := List.exists_cons_of_ne_nil hne
  have hrace : raceDownloads (x :: rest) =
      firstSome ((x :: rest).map wrapAttempt) := rfl
  constructor
  · intro i hi b hprev hok
    rw [hrace]
    refine firstSome_of_first _ i (by simpa using hi) _ ?_ ?_
    · intro j hj hlt
      rw [List.get_eq_getElem, List.getElem_map]
      exact hprev j (by simpa using hj) hlt
    · rw [List.get_eq_getElem, List.getElem_map]
      have hok' : (x :: rest)[i].outcome = .ok b := hok
      simp [wrapAttempt, hok']
  · rw [hrace, firstSome_eq_none_iff]
    simp

/-- Witness for `c4_race_first_success`: in the fixture race the first
adapter resolves `null` and the second success (in launch order) wins,
even though a later adapter also succeeds. -/
theorem c4_race_first_success_witness :
    fixtureAttempts ≠ [] ∧
    raceDownloads fixtureAttempts = some ([1, 2], DownloadSource.scihub) := by
  refine ⟨by decide, ?_⟩
  have h := (c4_race_first_success fixtureAttempts (by decide)).1 1 (by decide)
    [1, 2]
    (by
      intro j hj hlt
      have hj0 : j = 0 := Nat.lt_one_iff.mp hlt
      subst hj0
      exact (by decide :
        wrapAttempt (fixtureAttempts.get ⟨0, Nat.succ_pos 3⟩) = none))
    (by decide)
  exact h.trans (by decide)

/-- C7: after any sequence of topic-search cycle iterations (any fuel, any
query schedule, any search oracle) the accumulated paper collection has no
two entries sharing a DOI, and accumulation stops at the target count. -/
theorem c7_dedup_invariant (env : TopicEnv) (qs0 : List String)
    (papers cycles fuel : ℕ) :
    ((runTopicLoop env papers cycles fuel
        (topicInitState qs0 papers cycles)).allPapers.map (·.doi)).Nodup ∧
    (runTopicLoop env papers cycles fuel
        (topicInitState qs0 papers cycles)).allPapers.length ≤ papers := by
  have h := runTopicLoop_inv env papers cycles fuel _
    (topicInitState_inv qs0 papers cycles)
  exact ⟨h.1, h.2.2.1⟩

/-- C2 amended: in the topic-search pipeline every store state has
`papersFound` bounded by the requested target (stored as `totalPapers`);
in the DOI pipeline `papersFound` is bounded only by the number of valid
(cleaned) DOIs, which is not related to the task's `totalPapers` — the
original claim fails there (see the counterexample). -/
theorem c2_amended_papersFound_bounds (env : TopicEnv)
    (fetchOut fetchOut2 : Paper → DownloadSource → AttemptOutcome)
    (enabled enabled2 : List DownloadSource) (tid tid2 : String)
    (qs0 : List String) (papers cycles : ℕ) (dlFull dlFull2 : Bool)
    (fuel : ℕ) (lookup : String → Option Paper) (dois : List String)
    (papersParam cyclesParam : ℕ) :
    (∀ x ∈ (processTopicSearchRun env fetchOut enabled tid qs0 papers cycles
        dlFull fuel).trace, x.papersFound ≤ papers ∧ x.totalPapers = papers) ∧
    (∀ x ∈ (processDOISearchRun lookup fetchOut2 enabled2 tid2 dois
        papersParam cyclesParam dlFull2).trace,
      x.papersFound ≤ (dois.filterMap cleanDoi).length) := by
  constructor
  · set s := runTopicLoop env papers cycles fuel
      (topicInitState qs0 papers cycles) with hsdef
    have hs := runTopicLoop_inv env papers cycles fuel _
      (topicInitState_inv qs0 papers cycles)
    rw [← hsdef] at hs
    obtain ⟨_, _, hlen, hpf, htp, htr⟩ := hs
    have hQ2 : (setFoundMessage s.task s.allPapers.length
        "Preparing to download..." s.time).papersFound ≤ papers ∧
        (setFoundMessage s.task s.allPapers.length
          "Preparing to download..." s.time).totalPapers = papers :=
      ⟨by simpa [setFoundMessage] using hlen,
       by simpa [setFoundMessage] using htp⟩
    simp only [processTopicSearchRun, ← hsdef]
    split
    · intro x hx
      rcases List.mem_append.mp hx with hx | hx
      · exact htr x hx
      · simp only [List.mem_singleton] at hx
        subst hx
        exact ⟨by simpa [failTask] using hpf, by simpa [failTask] using htp⟩
    · have hQ := processResultsRun_inv
        (fun x => x.papersFound ≤ papers ∧ x.totalPapers = papers)
        (by intro t m p now h; simpa [setMessageProgress] using h)
        (by intro t i tot now h; simpa [updateDownloadProgress] using h)
        (by intro t d m now h; simpa [completeTask] using h)
        fetchOut enabled dlFull tid s.allPapers
        (setFoundMessage s.task s.allPapers.length
          "Preparing to download..." s.time)
        (s.trace ++ [setFoundMessage s.task s.allPapers.length
          "Preparing to download..." s.time]) (s.time + 1)
        hQ2
        (by
          intro x hx
          rcases List.mem_append.mp hx with hx | hx
          · exact htr x hx
          · simp only [List.mem_singleton] at hx
            subst hx
            exact hQ2)
      exact hQ.2
  · set r := doiLookupLoop lookup (dois.filterMap cleanDoi).length
      (dois.filterMap cleanDoi) 0 []
      (startProcessing (createTask papersParam cyclesParam 0)
        "Processing DOI list..." 1)
      [createTask papersParam cyclesParam 0,
       startProcessing (createTask papersParam cyclesParam 0)
         "Processing DOI list..." 1] 2 with hrdef
    have hloop := doiLookupLoop_inv lookup (dois.filterMap cleanDoi).length
      (dois.filterMap cleanDoi) 0 []
      (startProcessing (createTask papersParam cyclesParam 0)
        "Processing DOI list..." 1)
      [createTask papersParam cyclesParam 0,
       startProcessing (createTask papersParam cyclesParam 0)
         "Processing DOI list..." 1] 2
      (by simp)
      (by simp [startProcessing, createTask])
      (by
        intro x hx
        rcases List.mem_cons.mp hx with hx | hx
        · subst hx; simp [createTask]
        · simp only [List.mem_singleton] at hx
          subst hx
          simp [startProcessing, createTask])
    rw [← hrdef] at hloop
    have hacclen : r.1.length ≤ (dois.filterMap cleanDoi).length := by
      rw [hrdef, doiLookupLoop_acc]
      simpa using List.length_filterMap_le lookup (dois.filterMap cleanDoi)
    have hQ3 : (setFoundMessage r.2.1 r.1.length
        "Preparing to download..." r.2.2.2).papersFound ≤
          (dois.filterMap cleanDoi).length := by
      simpa [setFoundMessage] using hacclen
    simp only [processDOISearchRun, ← hrdef]
    split
    · intro x hx
      rcases List.mem_append.mp hx with hx | hx
      · exact hloop.2 x hx
      · simp only [List.mem_singleton] at hx
        subst hx
        simpa [failTask] using hloop.1
    · have hQ := processResultsRun_inv
        (fun x => x.papersFound ≤ (dois.filterMap cleanDoi).length)
        (by intro t m p now h; simpa [setMessageProgress] using h)
        (by intro t i tot now h; simpa [updateDownloadProgress] using h)
        (by intro t d m now h; simpa [completeTask] using h)
        fetchOut2 enabled2 dlFull2 tid2 r.1
        (setFoundMessage r.2.1 r.1.length
          "Preparing to download..." r.2.2.2)
        (r.2.2.1 ++ [setFoundMessage r.2.1 r.1.length
          "Preparing to download..." r.2.2.2]) (r.2.2.2 + 1)
        hQ3
        (by
          intro x hx
          rcases List.mem_append.mp hx with hx | hx
          · exact hloop.2 x hx
          · simp only [List.mem_singleton] at hx
            subst hx
            exact hQ3)
      exact hQ.2

/-- Witness for `c2_amended_papersFound_bounds` at a concrete run and a
concrete traced store state. -/
theorem c2_amended_papersFound_bounds_witness :
    (createTask 1 1 0).papersFound ≤ 1 ∧ (createTask 1 1 0).totalPapers = 1 :=
  (c2_amended_papersFound_bounds envOne (fun _ _ => .notFound)
      (fun _ _ => .notFound) [] [] "t" "t" ["q0"] 1 1 false false 2
      (fun _ => none) [] 1 1).1 (createTask 1 1 0) (by decide)

/-- C8: DOI-list processing looks up exactly the entries whose cleaned form
(after trimming, stripping a leading `@`, and extracting the part after
`doi.org/`) starts with `10.`; the rest are excluded, and when every
lookup yields a paper the task's final `papersFound` equals the number of
valid entries (3 for the witness's 5-entry list with 2 invalid ones). -/
theorem c8_doi_cleaning_lookup (lookup : String → Option Paper)
    (fetchOut : Paper → DownloadSource → AttemptOutcome)
    (enabled : List DownloadSource) (tid : String) (dois : List String)
    (papersParam cyclesParam : ℕ) (dlFull : Bool)
    (hsome : ∀ d ∈ dois.filterMap cleanDoi, (lookup d).isSome) :
    (∀ d : String, (cleanDoi d).isSome ↔
        jsStartsWith (jsCleanForm d) "10." = true) ∧
    (processDOISearchRun lookup fetchOut enabled tid dois papersParam
        cyclesParam dlFull).allPapers =
      (dois.filterMap cleanDoi).filterMap lookup ∧
    (processDOISearchRun lookup fetchOut enabled tid dois papersParam
        cyclesParam dlFull).task.papersFound =
      (dois.filterMap cleanDoi).length := by
  refine ⟨?_, processDOISearchRun_allPapers lookup fetchOut enabled tid dois
    papersParam cyclesParam dlFull, ?_⟩
  · intro d
    by_cases h : jsStartsWith (jsCleanForm d) "10." = true <;>
      simp [cleanDoi, h]
  · have hlen := length_filterMap_all_some lookup _ hsome
    set r := doiLookupLoop lookup (dois.filterMap cleanDoi).length
      (dois.filterMap cleanDoi) 0 []
      (startProcessing (createTask papersParam cyclesParam 0)
        "Processing DOI list..." 1)
      [createTask papersParam cyclesParam 0,
       startProcessing (createTask papersParam cyclesParam 0)
         "Processing DOI list..." 1] 2 with hrdef
    have hr1 : r.1 = (dois.filterMap cleanDoi).filterMap lookup := by
      rw [hrdef, doiLookupLoop_acc]
      simp
    simp only [processDOISearchRun, ← hrdef]
    split
    · rename_i h0
      rw [hr1, hlen] at h0
      have hnil : dois.filterMap cleanDoi = [] :=
        List.eq_nil_of_length_eq_zero h0
      rw [hrdef]
      rw [hnil]
      simp [doiLookupLoop, failTask, startProcessing, createTask, hnil]
    · rw [processResultsRun_task_papersFound]
      simp only [setFoundMessage]
      rw [hr1, hlen]

/-- Witness for `c8_doi_cleaning_lookup`: the 5-entry DOI list with 2
invalid entries yields exactly 3 lookups and `papersFound = 3`. -/
theorem c8_doi_cleaning_lookup_witness :
    (∀ d ∈ dois5.filterMap cleanDoi,
      ((fun x => some (notFoundPaper x)) d).isSome) ∧
    (processDOISearchRun (fun d => some (notFoundPaper d))
      (fun _ _ => .notFound) [] "t" dois5 20 3 false).task.papersFound = 3 := by
  refine ⟨by decide, ?_⟩
  have h := (c8_doi_cleaning_lookup (fun d => some (notFoundPaper d))
    (fun _ _ => .notFound) [] "t" dois5 20 3 false (by decide)).2.2
  rw [h]
  decide

/-- C3 amended: immediately after processing the query at 0-based index
`floor(cycles / 2)` — i.e. after `floor(cycles / 2) + 1` cycles have
executed — if the accumulated unique-result count (after this cycle's
dedup) is below 80% of target, the schedule becomes the executed prefix of
`cycle + 1` queries followed by a freshly generated batch requested with
count `cycles - cycle - 1`, passing the papers found so far as context;
the executed prefix is untouched.  (With `cycles = 10` that is 6 executed
and 4 replaced — the original claim's 5 and 5 is refuted by the
counterexample.) -/
theorem c3_amended_splice (env : TopicEnv) (papers cycles : ℕ)
    (s : TopicState) (hcy : s.cycle = cycles / 2)
    (hlow : 5 * (dedupFold (env.search (s.queries.getD s.cycle ""))
      s.seenDois s.allPapers papers).2.length < 4 * papers)
    (hlen : s.cycle < s.queries.length) :
    (cycleStep env papers cycles s).queries =
      s.queries.take (s.cycle + 1) ++
        env.broaden (cycles - s.cycle - 1)
          (dedupFold (env.search (s.queries.getD s.cycle ""))
            s.seenDois s.allPapers papers).2 ∧
    (cycleStep env papers cycles s).cycle = s.cycle + 1 ∧
    (cycleStep env papers cycles s).queries.take (s.cycle + 1) =
      s.queries.take (s.cycle + 1) ∧
    (cycleStep env papers cycles s).allPapers =
      (dedupFold (env.search (s.queries.getD s.cycle ""))
        s.seenDois s.allPapers papers).2 := by
  simp only [cycleStep]
  rw [if_pos ⟨hcy, hlow⟩]
  refine ⟨rfl, rfl, ?_, rfl⟩
  show (s.queries.take (s.cycle + 1) ++
    env.broaden (cycles - s.cycle - 1) _).take (s.cycle + 1) = _
  rw [List.take_append_of_le_length, List.take_take]
  · simp
  · rw [List.length_take]
    omega

/-- Witness for `c3_amended_splice` at the concrete ten-cycle run. -/
theorem c3_amended_splice_witness :
    c3Before.cycle = 10 / 2 ∧
    (cycleStep envPerQuery 20 10 c3Before).cycle = c3Before.cycle + 1 := by
  refine ⟨by decide, ?_⟩
  exact (c3_amended_splice envPerQuery 20 10 c3Before (by decide) (by decide)
    (by decide)).2.1

/-- C10: when the metadata provider responds but has no record for a DOI,
the by-DOI lookup returns the `Title Not Found` placeholder carrying the
queried DOI (Scopus: ok response with no entry or a falsy first title;
OpenAlex: HTTP 404) rather than `null`; `null` arises only from provider
or network errors; and a placeholder returned by the lookup is included in
the DOI pipeline's result collection (hence counted in `papersFound` and
passed to the download phase). -/
theorem c10_lookup_notfound_placeholder (e : ScopusEntry)
    (entries : List ScopusEntry) (doi : String)
    (resp : FetchOutcome (List ScopusEntry))
    (respO : FetchOutcome OpenAlexWork)
    (lookup : String → Option Paper) (dois : List String) (d : String)
    (fetchOut : Paper → DownloadSource → AttemptOutcome)
    (enabled : List DownloadSource) (tid : String) (pp cp : ℕ)
    (dl : Bool) :
    lookupByDoiScopusM (.ok []) doi = some (notFoundPaper doi) ∧
    (jsTruthyStr e.title = false →
      lookupByDoiScopusM (.ok (e :: entries)) doi =
        some (notFoundPaper doi)) ∧
    (lookupByDoiScopusM resp doi = none → ∀ es, resp ≠ .ok es) ∧
    lookupByDoiOpenAlexM (.httpError 404) doi = some (notFoundPaper doi) ∧
    (lookupByDoiOpenAlexM respO doi = none →
      (∀ w, respO ≠ .ok w) ∧ respO ≠ .httpError 404) ∧
    (notFoundPaper doi).title = "Title Not Found" ∧
    (notFoundPaper doi).doi = doi ∧
    (d ∈ dois.filterMap cleanDoi → lookup d = some (notFoundPaper d) →
      notFoundPaper d ∈ (processDOISearchRun lookup fetchOut enabled tid
        dois pp cp dl).allPapers) := by
  refine ⟨rfl, ?_, ?_, by simp [lookupByDoiOpenAlexM], ?_, rfl, rfl, ?_⟩
  · intro h
    simp [lookupByDoiScopusM, h]
  · intro h es hc
    subst hc
    revert h
    cases es with
    | nil => simp [lookupByDoiScopusM]
    | cons e' rest =>
      simp only [lookupByDoiScopusM]
      split <;> simp
  · intro h
    cases respO with
    | ok w => simp [lookupByDoiOpenAlexM] at h
    | httpError status =>
      refine ⟨fun w hc => FetchOutcome.noConfusion hc, fun hc => ?_⟩
      rw [hc] at h
      simp [lookupByDoiOpenAlexM] at h
    | netError m =>
      exact ⟨fun w hc => FetchOutcome.noConfusion hc,
        fun hc => FetchOutcome.noConfusion hc⟩
  · intro hd hl
    rw [processDOISearchRun_allPapers]
    exact List.mem_filterMap.mpr ⟨d, hd, hl⟩

/-- Witness for `c10_lookup_notfound_placeholder`: a concrete ok response
with a title-less entry yields the placeholder, which then appears in the
pipeline's collection. -/
theorem c10_lookup_notfound_placeholder_witness :
    jsTruthyStr (ScopusEntry.title ⟨none, none, none, none, none⟩) = false ∧
    lookupByDoiScopusM (.ok [⟨none, none, none, none, none⟩]) "10.1/a" =
      some (notFoundPaper "10.1/a") ∧
    notFoundPaper "10.1/a" ∈
      (processDOISearchRun (fun x => some (notFoundPaper x))
        (fun _ _ => .notFound) [] "t" ["10.1/a"] 1 1 false).allPapers := by
  refine ⟨by decide, ?_, ?_⟩
  · exact (c10_lookup_notfound_placeholder ⟨none, none, none, none, none⟩ []
      "10.1/a" (.netError "x") (.netError "x")
      (fun x => some (notFoundPaper x)) ["10.1/a"] "10.1/a"
      (fun _ _ => .notFound) [] "t" 1 1 false).2.1 (by decide)
  · exact (c10_lookup_notfound_placeholder ⟨none, none, none, none, none⟩ []
      "10.1/a" (.netError "x") (.netError "x")
      (fun x => some (notFoundPaper x)) ["10.1/a"] "10.1/a"
      (fun _ _ => .notFound) [] "t" 1 1 false).2.2.2.2.2.2.2
      (by decide) rfl

/-- C6: when every launched adapter for an item fails, the download driver
records a `FailedDownload` for it whose attempted-source list is the full
enabled source set; removing the item leaves the saved files and the
success list unchanged (so nothing — in particular no partial file — is
saved for it); and result processing always ends in `completeTask`
(status `complete`, progress 100), so download failures never fail the
task. -/
theorem c6_all_fail_recorded
    (fetchOut : Paper → DownloadSource → AttemptOutcome)
    (enabled : List DownloadSource) (dir : String) (pre post : List Paper)
    (p : Paper) (total total' i i' : ℕ) (t t' : TaskStatus)
    (tr tr' : List TaskStatus) (time time' : ℕ)
    (hdoi : p.doi ≠ "")
    (hfail : ∀ a ∈ createDownloadAttempts (fetchOut p) p enabled,
      wrapAttempt a = none) :
    (∃ msg, (⟨p, msg, enabled⟩ : FailedDownload) ∈
      (downloadPapersGo fetchOut enabled dir total (pre ++ p :: post) i t tr
        time).1.failed) ∧
    (downloadPapersGo fetchOut enabled dir total (pre ++ p :: post) i t tr
        time).1.saved =
      (downloadPapersGo fetchOut enabled dir total' (pre ++ post) i' t' tr'
        time').1.saved ∧
    (downloadPapersGo fetchOut enabled dir total (pre ++ p :: post) i t tr
        time).1.successful =
      (downloadPapersGo fetchOut enabled dir total' (pre ++ post) i' t' tr'
        time').1.successful ∧
    (∀ (dlFull : Bool) (tid : String) (ps : List Paper) (t2 : TaskStatus)
      (tr2 : List TaskStatus) (time2 : ℕ),
      (processResultsRun fetchOut enabled dlFull tid ps t2 tr2
        time2).task.status = .complete ∧
      (processResultsRun fetchOut enabled dlFull tid ps t2 tr2
        time2).task.progress = 100) := by
  have hb := downloadBatchOf_remove fetchOut enabled dir p post hdoi hfail pre
  rw [downloadPapersGo_batch, downloadPapersGo_batch]
  exact ⟨⟨hb.2.2.choose, hb.2.2.choose_spec⟩, hb.1, hb.2.1,
    fun dlFull tid ps t2 tr2 time2 =>
      processResultsRun_complete fetchOut enabled dlFull tid ps t2 tr2 time2⟩

/-- Witness for `c6_all_fail_recorded`: a single paper whose only enabled
source fails is recorded with the full enabled set. -/
theorem c6_all_fail_recorded_witness :
    paperA.doi ≠ "" ∧
    (∃ msg, (⟨paperA, msg, [DownloadSource.unpaywall]⟩ : FailedDownload) ∈
      (downloadPapersGo (fun _ _ => .notFound) [DownloadSource.unpaywall]
        "d" 1 ([] ++ paperA :: []) 0 (createTask 1 1 0) [] 0).1.failed) := by
  refine ⟨by decide, ?_⟩
  exact (c6_all_fail_recorded (fun _ _ => .notFound)
    [DownloadSource.unpaywall] "d" [] [] paperA 1 1 0 0 (createTask 1 1 0)
    (createTask 1 1 0) [] [] 0 0 (by decide) (by decide)).1

end JFinder
